import Mathlib

/-!
Verification development for the price-comparison engine
(`src/price_comparison.rs`).

Modelling conventions:
* Rust `f64` prices, ratings and percentages are modelled as rationals (`ℚ`);
  NaN and infinities are not representable in this embedding.
* The external search collaborator (`DealSearchService.search_product_across_platforms`,
  not part of this crate) is modelled as an explicit parameter of type
  `Except Unit (List SearchResult)`: an `Except.error` models the provider
  failing, an `Except.ok` gives the returned listings.
* Rust `format!` recommendation strings are abstracted to an inductive
  `Recommendation` carrying the data interpolated into the string
  (the savings amount and platform, resp. the platform and rating).
* `Vec::sort_by` is a stable sort; it is modelled by a stable insertion
  sort on the price comparator.  The comparator in the source is
  `a.price.partial_cmp(&b.price).unwrap_or(Equal)`; on rationals the
  comparison is total, so the comparator is simply `· ≤ ·` on prices.
* The service owns a `BloomFilter` and a `ConcurrentTrie` (constructed in
  `PriceComparisonService::new`); their contents are modelled as a
  `ServiceState`.  `compare_prices` computes `_product_hash` but performs
  no insert into either structure (the source comment at lines 136-137
  says caching is skipped), which the state-passing embedding makes explicit.
-/

/-- `PriceComparisonRequest` from the source (lines 18-25). -/
structure PriceComparisonRequest where
  product_name : String
  current_price : ℚ
  current_platform : String
  product_category : Option String
  user_id : Option String
deriving Repr, DecidableEq

/-- `PlatformPrice` from the source (lines 27-36). -/
structure PlatformPrice where
  platform : String
  price : ℚ
  url : String
  discount_percentage : ℚ
  availability : Bool
  rating : Option ℚ
  delivery_time : Option String
deriving Repr, DecidableEq

/-- One record returned by the external search collaborator, with the
fields `compare_prices` reads from it (lines 81-87). -/
structure SearchResult where
  platform : String
  price : ℚ
  url : String
  in_stock : Bool
  rating : Option ℚ
  estimated_delivery : Option String
deriving Repr, DecidableEq

/-- Abstraction of the two `format!` recommendation strings
(lines 123-126 and 130-133): constructor arguments are the values
interpolated into the string. -/
inductive Recommendation where
  | savings (amount : ℚ) (platform : String)
  | ratingQuality (platform : String) (rating : ℚ)
deriving Repr, DecidableEq

/-- `PriceComparisonResponse` from the source (lines 38-45). -/
structure PriceComparisonResponse where
  current_platform : PlatformPrice
  alternatives : List PlatformPrice
  best_deal : PlatformPrice
  potential_savings : ℚ
  recommendations : List Recommendation
deriving Repr, DecidableEq

/-- The only status codes the handler layer can produce:
`INTERNAL_SERVER_ERROR` on a search failure (line 72); `BAD_REQUEST` is the
400-class code the spec mentions, which the source never produces. -/
inductive StatusCode where
  | INTERNAL_SERVER_ERROR
  | BAD_REQUEST
deriving Repr, DecidableEq

/-- Lines 80-88: mapping one search result to a `PlatformPrice`.
`discount_percentage` is Rust
`((current_price - result.price) / current_price * 100.0).max(0.0)`. -/
def toPlatformPrice (current_price : ℚ) (result : SearchResult) : PlatformPrice :=
  { platform := result.platform
    price := result.price
    url := result.url
    discount_percentage := max ((current_price - result.price) / current_price * 100) 0
    availability := result.in_stock
    rating := result.rating
    delivery_time := result.estimated_delivery }

/-- Stable insertion of an element into a price-sorted list: the inserted
element goes before the first element of greater-or-equal price.  Together
with `sortByPrice` this models the stable `Vec::sort_by` at line 95. -/
def insertByPrice (x : PlatformPrice) : List PlatformPrice → List PlatformPrice
  | [] => [x]
  | y :: ys => if x.price ≤ y.price then x :: y :: ys else y :: insertByPrice x ys

/-- Stable sort of `sorted_results` by ascending price (line 95). -/
def sortByPrice : List PlatformPrice → List PlatformPrice
  | [] => []
  | x :: xs => insertByPrice x (sortByPrice xs)

/-- The current-platform snapshot built at lines 98-106 and again at
lines 108-116 (the two records are identical). -/
def currentSnapshot (req : PriceComparisonRequest) : PlatformPrice :=
  { platform := req.current_platform
    price := req.current_price
    url := ""
    discount_percentage := 0
    availability := true
    rating := none
    delivery_time := none }

/-- Lines 78-92: `alternatives` is the listings mapped through
`toPlatformPrice` in order. -/
def alternativesOf (req : PriceComparisonRequest) (search_results : List SearchResult) :
    List PlatformPrice :=
  search_results.map (toPlatformPrice req.current_price)

/-- Lines 94-106: `best_deal` is the head of the price-sorted alternatives,
falling back to the current-platform snapshot when there are none. -/
def bestDealOf (req : PriceComparisonRequest) (search_results : List SearchResult) :
    PlatformPrice :=
  (sortByPrice (alternativesOf req search_results)).headD (currentSnapshot req)

/-- Line 118: `potential_savings = current_price - best_deal.price`. -/
def savingsOf (req : PriceComparisonRequest) (search_results : List SearchResult) : ℚ :=
  req.current_price - (bestDealOf req search_results).price

/-- Lines 121-134: the recommendation list.  The source guard for the
rating message is `best_deal.rating.unwrap_or(0.0) > 4.0`; the message body
calls `best_deal.rating.unwrap()`, which under the guard equals
`rating.getD 0`. -/
def recommendationsOf (req : PriceComparisonRequest) (search_results : List SearchResult) :
    List Recommendation :=
  (if 0 < savingsOf req search_results then
    [Recommendation.savings (savingsOf req search_results)
      (bestDealOf req search_results).platform]
  else []) ++
  (if 4 < (bestDealOf req search_results).rating.getD 0 then
    [Recommendation.ratingQuality (bestDealOf req search_results).platform
      ((bestDealOf req search_results).rating.getD 0)]
  else [])

/-- `PriceComparisonService::compare_prices` (lines 64-146), with the search
collaborator call replaced by the explicit `searchOutcome` parameter.
A provider error is mapped to `INTERNAL_SERVER_ERROR` (line 72); there is no
request validation anywhere in the function. -/
def compare_prices (req : PriceComparisonRequest)
    (searchOutcome : Except Unit (List SearchResult)) :
    Except StatusCode PriceComparisonResponse :=
  match searchOutcome with
  | Except.error _ => Except.error StatusCode.INTERNAL_SERVER_ERROR
  | Except.ok search_results =>
      Except.ok
        { current_platform := currentSnapshot req
          alternatives := alternativesOf req search_results
          best_deal := bestDealOf req search_results
          potential_savings := savingsOf req search_results
          recommendations := recommendationsOf req search_results }

/-- Line 66: `format!("{}-{}", req.product_name, req.current_platform)`. -/
def productHash (req : PriceComparisonRequest) : String :=
  req.product_name ++ "-" ++ req.current_platform

/-- Contents of the bloom filter and trie owned by the service
(lines 50-51), each modelled as the list of inserted keys. -/
structure ServiceState where
  bloom : List String
  trie : List String
deriving Repr, DecidableEq

/-- `compare_prices` together with the service state it can observe and
mutate.  The source computes `_product_hash` (line 66) but never calls
`insert` on the bloom filter or on the trie (the comment at lines 136-137
says caching is skipped), so the state is returned unchanged. -/
def comparePricesWithState (st : ServiceState) (req : PriceComparisonRequest)
    (searchOutcome : Except Unit (List SearchResult)) :
    ServiceState × Except StatusCode PriceComparisonResponse :=
  let _product_hash := productHash req
  (st, compare_prices req searchOutcome)

/-- `bulk_compare` (lines 171-196): each product is paired with its own
search outcome; the loop at lines 188-193 pushes each `Ok` result and
skips each `Err`, and the handler returns `Ok` unconditionally (line 195). -/
def bulk_compare
    (products : List (PriceComparisonRequest × Except Unit (List SearchResult))) :
    Except StatusCode (List PriceComparisonResponse) :=
  let futures := products.map (fun p => compare_prices p.1 p.2)
  Except.ok (futures.foldl (fun results f =>
    match f with
    | Except.ok r => results ++ [r]
    | Except.error _ => results) [])

/-- Specification-side selector: the first element of the list attaining
the minimal price (earlier elements win ties); `none` on the empty list.
Ratings play no role. -/
def firstMinByPrice : List PlatformPrice → Option PlatformPrice
  | [] => none
  | x :: xs =>
      match firstMinByPrice xs with
      | none => some x
      | some m => if x.price ≤ m.price then some x else some m

deriving instance DecidableEq for Except

/-- A concrete request used to exercise the theorems: the spec §8 scenario
request (with round numbers). -/
def reqLaptop : PriceComparisonRequest :=
  ⟨"Laptop", 100, "BestBuy", none, none⟩

/-- A concrete search listing cheaper than `reqLaptop`'s current price and
with an excellent rating. -/
def listingAmazon : SearchResult :=
  ⟨"Amazon", 50, "u", true, some 5, none⟩

/-- The response `compare_prices` produces for `reqLaptop` with the single
listing `listingAmazon` (checked by `compare_prices_respLaptop`). -/
def respLaptop : PriceComparisonResponse :=
  { current_platform := ⟨"BestBuy", 100, "", 0, true, none, none⟩
    alternatives := [⟨"Amazon", 50, "u", 50, true, some 5, none⟩]
    best_deal := ⟨"Amazon", 50, "u", 50, true, some 5, none⟩
    potential_savings := 50
    recommendations := [Recommendation.savings 50 "Amazon",
                        Recommendation.ratingQuality "Amazon" 5] }

theorem compare_prices_respLaptop :
    compare_prices reqLaptop (Except.ok [listingAmazon]) = Except.ok respLaptop := by
  simp only [compare_prices, reqLaptop, listingAmazon, respLaptop, alternativesOf, bestDealOf,
    savingsOf, recommendationsOf, toPlatformPrice, sortByPrice, insertByPrice, currentSnapshot,
    List.map, List.headD, Option.getD]
  norm_num

theorem headD_eq_head_getD {α : Type} (l : List α) (d : α) :
    l.headD d = l.head?.getD d := by
  cases l <;> rfl

theorem head_insertByPrice (x : PlatformPrice) (l : List PlatformPrice) :
    (insertByPrice x l).head? =
      some (match l.head? with
            | none => x
            | some y => if x.price ≤ y.price then x else y) := by
  cases l with
  | nil => rfl
  | cons y ys =>
      by_cases hp : x.price ≤ y.price <;> simp [insertByPrice, hp]

theorem head_sortByPrice (l : List PlatformPrice) :
    (sortByPrice l).head? = firstMinByPrice l := by
  induction l with
  | nil => rfl
  | cons x xs ih =>
      simp only [sortByPrice, firstMinByPrice, head_insertByPrice, ← ih]
      cases h : (sortByPrice xs).head? with
      | none => rfl
      | some y => exact apply_ite some _ _ _

theorem firstMinByPrice_eq_none (l : List PlatformPrice) :
    firstMinByPrice l = none ↔ l = [] := by
  cases l with
  | nil => simp [firstMinByPrice]
  | cons x xs =>
      simp only [firstMinByPrice]
      cases firstMinByPrice xs with
      | none => simp
      | some m =>
          constructor
          · intro h
            by_cases hp : x.price ≤ m.price <;> simp [hp] at h
          · intro h
            exact absurd h (List.cons_ne_nil x xs)

theorem firstMinByPrice_le (l : List PlatformPrice) (m : PlatformPrice)
    (hm : firstMinByPrice l = some m) : ∀ p ∈ l, m.price ≤ p.price := by
  induction l generalizing m with
  | nil => simp [firstMinByPrice] at hm
  | cons x xs ih =>
      cases h : firstMinByPrice xs with
      | none =>
          simp only [firstMinByPrice, h, Option.some.injEq] at hm
          subst hm
          intro p hp
          rcases List.mem_cons.mp hp with h1 | h1
          · simp [h1]
          · exact absurd h1 (by simp [(firstMinByPrice_eq_none xs).mp h])
      | some n =>
          simp only [firstMinByPrice, h] at hm
          by_cases hp : x.price ≤ n.price
          · rw [if_pos hp, Option.some.injEq] at hm
            subst hm
            intro p hmem
            rcases List.mem_cons.mp hmem with h1 | h1
            · simp [h1]
            · exact le_trans hp (ih n h p h1)
          · rw [if_neg hp, Option.some.injEq] at hm
            subst hm
            intro p hmem
            rcases List.mem_cons.mp hmem with h1 | h1
            · subst h1
              exact le_of_lt (lt_of_not_le hp)
            · exact ih n h p h1

theorem firstMinByPrice_first (l : List PlatformPrice) (m : PlatformPrice)
    (hm : firstMinByPrice l = some m) :
    ∃ l₁ l₂, l = l₁ ++ m :: l₂ ∧ ∀ p ∈ l₁, m.price < p.price := by
  induction l generalizing m with
  | nil => simp [firstMinByPrice] at hm
  | cons x xs ih =>
      cases h : firstMinByPrice xs with
      | none =>
          simp only [firstMinByPrice, h, Option.some.injEq] at hm
          subst hm
          exact ⟨[], xs, by simp⟩
      | some n =>
          simp only [firstMinByPrice, h] at hm
          by_cases hp : x.price ≤ n.price
          · rw [if_pos hp, Option.some.injEq] at hm
            subst hm
            exact ⟨[], xs, by simp⟩
          · rw [if_neg hp, Option.some.injEq] at hm
            subst hm
            obtain ⟨l₁, l₂, heq, hlt⟩ := ih n h
            refine ⟨x :: l₁, l₂, by simp [heq], ?_⟩
            intro p hp2
            rcases List.mem_cons.mp hp2 with h1 | h1
            · subst h1
              exact lt_of_not_le hp
            · exact hlt p h1

theorem firstMinByPrice_mem (l : List PlatformPrice) (m : PlatformPrice)
    (hm : firstMinByPrice l = some m) : m ∈ l := by
  obtain ⟨l₁, l₂, heq, _⟩ := firstMinByPrice_first l m hm
  simp [heq]

theorem bestDealOf_eq_firstMin (req : PriceComparisonRequest) (l : List SearchResult) :
    bestDealOf req l = (firstMinByPrice (alternativesOf req l)).getD (currentSnapshot req) := by
  rw [bestDealOf, headD_eq_head_getD, head_sortByPrice]
theorem foldl_push_results (l : List (Except StatusCode PriceComparisonResponse))
    (acc : List PriceComparisonResponse) :
    l.foldl (fun results f =>
        match f with
        | Except.ok r => results ++ [r]
        | Except.error _ => results) acc = acc ++ l.filterMap Except.toOption := by
  induction l generalizing acc with
  | nil => simp
  | cons x xs ih =>
      cases x with
      | ok r => simp [List.foldl_cons, ih, Except.toOption, List.filterMap_cons]
      | error e => simp [List.foldl_cons, ih, Except.toOption, List.filterMap_cons]

theorem bulk_compare_eq_filterMap
    (products : List (PriceComparisonRequest × Except Unit (List SearchResult))) :
    bulk_compare products =
      Except.ok (products.filterMap (fun p => (compare_prices p.1 p.2).toOption)) := by
  rw [bulk_compare, foldl_push_results, List.filterMap_map]
  rfl

theorem length_filterMap_add_none {α β : Type} (f : α → Option β) (l : List α) :
    (l.filterMap f).length + l.countP (fun a => (f a).isNone) = l.length := by
  induction l with
  | nil => rfl
  | cons x xs ih =>
      cases h : f x <;>
        simp [List.filterMap_cons, h, List.countP_cons, ← ih] <;> omega
/-- C1 counterexample: with current price 100 and a single alternative priced
200, the returned potential_savings is -100, which is negative; the claimed
invariant potential_savings ≥ 0 fails because the current platform is not in
the candidate set. -/
theorem savings_negative_cex :
    (compare_prices ⟨"L", 100, "B", none, none⟩
        (Except.ok [⟨"A", 200, "u", true, none, none⟩])).map
      PriceComparisonResponse.potential_savings = Except.ok (-100) ∧
    (-100 : ℚ) < 0 := by
  constructor
  · simp only [compare_prices, alternativesOf, bestDealOf, savingsOf, toPlatformPrice,
      sortByPrice, insertByPrice, currentSnapshot, List.map, List.headD, Except.map]
    norm_num
  · norm_num

/-- C1 (amended): for every successfully processed request, best_deal.price is
less than or equal to every alternative's price; potential_savings equals
current_price - best_deal.price; and when the alternative list is empty the
best deal is the current-platform snapshot and the savings are 0.  The current
platform is not a candidate when alternatives exist, so the savings may be
negative. -/
theorem best_deal_le_alternatives (req : PriceComparisonRequest) (l : List SearchResult)
    (res : PriceComparisonResponse)
    (h : compare_prices req (Except.ok l) = Except.ok res) :
    (∀ p ∈ res.alternatives, res.best_deal.price ≤ p.price) ∧
    res.potential_savings = req.current_price - res.best_deal.price ∧
    (res.alternatives = [] → res.best_deal = currentSnapshot req ∧ res.potential_savings = 0) := by
  simp only [compare_prices, Except.ok.injEq] at h
  subst h
  refine ⟨?_, rfl, ?_⟩
  · intro p hp
    rw [show (PriceComparisonResponse.best_deal
        { current_platform := currentSnapshot req
          alternatives := alternativesOf req l
          best_deal := bestDealOf req l
          potential_savings := savingsOf req l
          recommendations := recommendationsOf req l }) = bestDealOf req l from rfl,
      bestDealOf_eq_firstMin]
    cases hm : firstMinByPrice (alternativesOf req l) with
    | none =>
        have : alternativesOf req l = [] := (firstMinByPrice_eq_none _).mp hm
        rw [this] at hp
        simp at hp
    | some m =>
        exact firstMinByPrice_le _ m hm p hp
  · intro hnil
    have hnil2 : alternativesOf req l = [] := hnil
    have hb : bestDealOf req l = currentSnapshot req := by
      rw [bestDealOf, hnil2]
      rfl
    refine ⟨hb, ?_⟩
    show savingsOf req l = 0
    rw [savingsOf, hb]
    exact sub_self _

/-- C1 witness: the amended theorem applied at the concrete `reqLaptop`
request with the single `listingAmazon` search result. -/
theorem best_deal_le_alternatives_witness :
    respLaptop.best_deal.price ≤
      (PlatformPrice.mk "Amazon" 50 "u" 50 true (some 5) none).price ∧
    respLaptop.potential_savings = reqLaptop.current_price - respLaptop.best_deal.price := by
  have h := best_deal_le_alternatives reqLaptop [listingAmazon] respLaptop
    compare_prices_respLaptop
  exact ⟨h.1 _ (by simp [respLaptop]), h.2.1⟩

/-- C2 counterexample: a request with an empty product name and a
non-positive current price still succeeds (no InvalidRequest, no 400-class
failure): the source performs no request validation. -/
theorem no_validation_cex :
    (⟨"", 0, "X", none, none⟩ : PriceComparisonRequest).product_name = "" ∧
    ¬ (0 : ℚ) < (⟨"", 0, "X", none, none⟩ : PriceComparisonRequest).current_price ∧
    (compare_prices ⟨"", 0, "X", none, none⟩ (Except.ok [])).isOk = true :=
  ⟨rfl, by norm_num, rfl⟩

/-- C2 (amended): `compare_prices` performs no request validation at all.
It succeeds for every request whenever the search succeeds, even with an
empty product name or a non-positive price, and it fails only with
`INTERNAL_SERVER_ERROR` when the search provider errors. -/
theorem compare_prices_no_validation (req : PriceComparisonRequest)
    (l : List SearchResult) (e : Unit) :
    (compare_prices req (Except.ok l)).isOk = true ∧
    compare_prices req (Except.error e) = Except.error StatusCode.INTERNAL_SERVER_ERROR :=
  ⟨rfl, rfl⟩

/-- C3 counterexample: current price 50, two alternatives both priced 100,
the first unrated and the second rated 5.  The code returns the first
alternative (platform "A", price 100, no rating): the current platform is not
in the candidate set (100 > 50) and the price tie is broken by list order,
not by descending rating. -/
theorem best_deal_policy_cex :
    (compare_prices ⟨"P", 50, "Cur", none, none⟩
        (Except.ok [⟨"A", 100, "u", true, none, none⟩,
                    ⟨"B", 100, "v", true, some 5, none⟩])).map
      (fun r => (r.best_deal.platform, r.best_deal.price, r.best_deal.rating)) =
      Except.ok ("A", 100, none) ∧
    ¬ ((100 : ℚ) ≤ 50) := by
  constructor
  · simp only [compare_prices, alternativesOf, bestDealOf, toPlatformPrice,
      sortByPrice, insertByPrice, currentSnapshot, List.map, List.headD, Except.map]
    norm_num
  · norm_num

/-- C3 (amended): the best deal is the first element of the alternatives list
attaining the minimal price (ties broken by original list order; ratings play
no role); the current-platform snapshot is used only as a fallback when the
alternatives list is empty. -/
theorem best_deal_first_min (req : PriceComparisonRequest) (l : List SearchResult)
    (res : PriceComparisonResponse)
    (h : compare_prices req (Except.ok l) = Except.ok res) :
    res.best_deal = (firstMinByPrice res.alternatives).getD (currentSnapshot req) ∧
    (res.alternatives ≠ [] →
      ∃ l₁ l₂, res.alternatives = l₁ ++ res.best_deal :: l₂ ∧
        ∀ p ∈ l₁, res.best_deal.price < p.price) := by
  simp only [compare_prices, Except.ok.injEq] at h
  subst h
  constructor
  · exact bestDealOf_eq_firstMin req l
  · intro hne
    cases hm : firstMinByPrice (alternativesOf req l) with
    | none => exact absurd ((firstMinByPrice_eq_none _).mp hm) hne
    | some m =>
        have hb : bestDealOf req l = m := by
          rw [bestDealOf_eq_firstMin, hm]
          rfl
        rw [show (PriceComparisonResponse.best_deal
          { current_platform := currentSnapshot req
            alternatives := alternativesOf req l
            best_deal := bestDealOf req l
            potential_savings := savingsOf req l
            recommendations := recommendationsOf req l }) = bestDealOf req l from rfl, hb]
        exact firstMinByPrice_first _ m hm

/-- C3 witness: the amended theorem at the concrete `reqLaptop` request. -/
theorem best_deal_first_min_witness :
    respLaptop.best_deal =
      (firstMinByPrice respLaptop.alternatives).getD (currentSnapshot reqLaptop) :=
  (best_deal_first_min reqLaptop [listingAmazon] respLaptop compare_prices_respLaptop).1

/-- C4: the mapping of a search listing into a PlatformPrice computes
discount_percentage as max(0, (current_price - price) / current_price * 100),
hence never negative, and carries availability, rating and delivery time
through unchanged; the alternatives of a successful comparison are exactly
the listings mapped this way. -/
theorem toPlatformPrice_fields (cp : ℚ) (r : SearchResult)
    (req : PriceComparisonRequest) (l : List SearchResult) :
    (toPlatformPrice cp r).discount_percentage = max 0 ((cp - r.price) / cp * 100) ∧
    0 ≤ (toPlatformPrice cp r).discount_percentage ∧
    (toPlatformPrice cp r).availability = r.in_stock ∧
    (toPlatformPrice cp r).rating = r.rating ∧
    (toPlatformPrice cp r).delivery_time = r.estimated_delivery ∧
    (compare_prices req (Except.ok l)).map PriceComparisonResponse.alternatives =
      Except.ok (l.map (toPlatformPrice req.current_price)) := by
  refine ⟨max_comm _ 0, le_max_right _ 0, rfl, rfl, rfl, rfl⟩

/-- C5: when the search provider returns no listings, the result is built
entirely from the current-platform snapshot: best_deal equals the snapshot,
potential_savings is 0 and the recommendation list is empty. -/
theorem empty_search_results (req : PriceComparisonRequest) :
    compare_prices req (Except.ok []) =
      Except.ok
        { current_platform := currentSnapshot req
          alternatives := []
          best_deal := currentSnapshot req
          potential_savings := 0
          recommendations := [] } := by
  have hb : bestDealOf req [] = currentSnapshot req := rfl
  have hs : savingsOf req [] = 0 := by
    rw [savingsOf, hb]
    exact sub_self _
  have hr : recommendationsOf req [] = [] := by
    rw [recommendationsOf, hs, hb]
    norm_num [currentSnapshot]
  simp [compare_prices, alternativesOf, hb, hs, hr]
/-- C6: a savings message is in the recommendations exactly when
potential_savings > 0 (and then carries exactly the savings amount and the
best-deal platform), a rating-quality message exactly when the best deal
rating exceeds 4.0, and when both apply the savings message comes first. -/
theorem recommendations_iff (req : PriceComparisonRequest) (l : List SearchResult)
    (res : PriceComparisonResponse)
    (h : compare_prices req (Except.ok l) = Except.ok res) :
    (∀ a p, Recommendation.savings a p ∈ res.recommendations ↔
        0 < res.potential_savings ∧ a = res.potential_savings ∧
          p = res.best_deal.platform) ∧
    (∀ p r, Recommendation.ratingQuality p r ∈ res.recommendations ↔
        4 < res.best_deal.rating.getD 0 ∧ p = res.best_deal.platform ∧
          r = res.best_deal.rating.getD 0) ∧
    (0 < res.potential_savings → 4 < res.best_deal.rating.getD 0 →
      res.recommendations =
        [Recommendation.savings res.potential_savings res.best_deal.platform,
         Recommendation.ratingQuality res.best_deal.platform
           (res.best_deal.rating.getD 0)]) := by
  simp only [compare_prices, Except.ok.injEq] at h
  subst h
  show (∀ a p, Recommendation.savings a p ∈ recommendationsOf req l ↔
        0 < savingsOf req l ∧ a = savingsOf req l ∧ p = (bestDealOf req l).platform) ∧
    (∀ p r, Recommendation.ratingQuality p r ∈ recommendationsOf req l ↔
        4 < (bestDealOf req l).rating.getD 0 ∧ p = (bestDealOf req l).platform ∧
          r = (bestDealOf req l).rating.getD 0) ∧
    (0 < savingsOf req l → 4 < (bestDealOf req l).rating.getD 0 →
      recommendationsOf req l =
        [Recommendation.savings (savingsOf req l) (bestDealOf req l).platform,
         Recommendation.ratingQuality (bestDealOf req l).platform
           ((bestDealOf req l).rating.getD 0)])
  refine ⟨?_, ?_, ?_⟩
  · intro a p
    by_cases h1 : 0 < savingsOf req l <;>
      by_cases h2 : 4 < (bestDealOf req l).rating.getD 0 <;>
        simp [recommendationsOf, h1, h2]
  · intro p r
    by_cases h1 : 0 < savingsOf req l <;>
      by_cases h2 : 4 < (bestDealOf req l).rating.getD 0 <;>
        simp [recommendationsOf, h1, h2]
  · intro h1 h2
    simp [recommendationsOf, h1, h2]

/-- C6 witness: for `reqLaptop` with `listingAmazon` both triggers fire and
the savings message precedes the rating message. -/
theorem recommendations_iff_witness :
    respLaptop.recommendations =
      [Recommendation.savings respLaptop.potential_savings respLaptop.best_deal.platform,
       Recommendation.ratingQuality respLaptop.best_deal.platform
         (respLaptop.best_deal.rating.getD 0)] :=
  (recommendations_iff reqLaptop [listingAmazon] respLaptop
    compare_prices_respLaptop).2.2 (by norm_num [respLaptop]) (by norm_num [respLaptop])

/-- C7 (code bug): `compare_prices` never modifies the bloom filter or the
trie: the service state is returned unchanged, and after a successful
comparison on the empty initial state the dedup key `productHash` is not in
the filter and the product name is not in the index, contradicting the
specified mandatory `insert` calls. -/
theorem dedup_not_recorded :
    (∀ (st : ServiceState) (req : PriceComparisonRequest)
        (searchOutcome : Except Unit (List SearchResult)),
      (comparePricesWithState st req searchOutcome).1 = st) ∧
    (comparePricesWithState ⟨[], []⟩ reqLaptop (Except.ok [])).2.isOk = true ∧
    (comparePricesWithState ⟨[], []⟩ reqLaptop
        (Except.ok [])).1.bloom.contains (productHash reqLaptop) = false ∧
    (comparePricesWithState ⟨[], []⟩ reqLaptop
        (Except.ok [])).1.trie.contains reqLaptop.product_name = false :=
  ⟨fun _ _ _ => rfl, rfl, rfl, rfl⟩

/-- C8 counterexample: a batch consisting of one intentionally invalid
request (empty product name) returns one result, not zero: the invalid
request does not fail, because there is no validation, so it is not excluded. -/
theorem bulk_keeps_invalid_cex :
    (compare_prices ⟨"", 5, "X", none, none⟩ (Except.ok [])).isOk = true ∧
    (bulk_compare [(⟨"", 5, "X", none, none⟩, Except.ok [])]).map List.length =
      Except.ok 1 ∧
    (Except.ok 1 : Except StatusCode ℕ) ≠ Except.ok 0 := by
  refine ⟨rfl, rfl, ?_⟩
  simp

/-- C8 (amended): for every batch, `bulk_compare` succeeds as a whole and
returns exactly N - M results, where M counts the items whose comparison
fails (which happens only on a search-provider error: requests with an empty
product name or a non-positive price succeed, as there is no validation). -/
theorem bulk_length
    (products : List (PriceComparisonRequest × Except Unit (List SearchResult))) :
    ∃ results, bulk_compare products = Except.ok results ∧
      results.length +
        products.countP (fun p => (compare_prices p.1 p.2).toOption.isNone) =
        products.length :=
  ⟨_, bulk_compare_eq_filterMap products, length_filterMap_add_none _ products⟩

/-- C9: `bulk_compare` returns the successful results in the same relative
order as their originating requests: the output equals the order-preserving
`filterMap` of the per-item comparisons over the input sequence. -/
theorem bulk_preserves_order
    (products : List (PriceComparisonRequest × Except Unit (List SearchResult))) :
    bulk_compare products =
      Except.ok (products.filterMap (fun p => (compare_prices p.1 p.2).toOption)) :=
  bulk_compare_eq_filterMap products

/-- C10: in this embedding `compare_prices` is total on every search-result
sequence, and the guard of the rating recommendation
(`rating.unwrap_or(0.0) > 4.0`) guarantees that the rating is `Some` at the
`unwrap` call site, so the unwrap cannot fail. -/
theorem rating_unwrap_guarded :
    (∀ (req : PriceComparisonRequest) (l : List SearchResult),
      (compare_prices req (Except.ok l)).isOk = true) ∧
    (∀ (req : PriceComparisonRequest) (l : List SearchResult),
      4 < (bestDealOf req l).rating.getD 0 → (bestDealOf req l).rating.isSome = true) := by
  refine ⟨fun _ _ => rfl, fun req l h => ?_⟩
  cases hr : (bestDealOf req l).rating with
  | none =>
      rw [hr] at h
      norm_num at h
  | some r => rfl

/-- C10 witness: the guard theorem applied at the concrete `reqLaptop`
request, where the best deal has rating 5 > 4. -/
theorem rating_unwrap_guarded_witness :
    (bestDealOf reqLaptop [listingAmazon]).rating.isSome = true :=
  rating_unwrap_guarded.2 reqLaptop [listingAmazon] (by
    simp only [bestDealOf, alternativesOf, toPlatformPrice, sortByPrice, insertByPrice,
      currentSnapshot, reqLaptop, listingAmazon, List.map, List.headD, Option.getD]
    norm_num)
